import Mathlib

/-!
# TrekkingPro route analytics engine: a shallow embedding

This file embeds the route analytics and estimation engine of the
TrekkingPro repository (src/services/calcService.ts and the geo utilities
of src/unnamed/part_006, final revision) and proves properties of it.

Conventions of the embedding:
* JavaScript numbers are modelled as exact rationals where the code only
  performs field operations on decimal literals (the aggregator, the speed
  model, the bio-metric formulas), and as real numbers where the code uses
  transcendental functions (haversine distance, the Tobler exponential).
* `Math.round x` is modelled as `Int.floor (x + 1/2)`, which is its exact
  JavaScript semantics; `toFixed k` composed with `parseFloat` is modelled
  as rounding to `k` decimal places by the same half-up rule (all values it
  is applied to in the claims are nonnegative, where the two agree).
* Division by zero: rational/real division by zero yields 0 in Lean, while
  JavaScript yields NaN or a signed infinity.  The single guard in the
  source where a zero divisor is reachable (the aggregator deviation test)
  is therefore modelled by an explicit case split, `aggGuardHolds`, that
  reproduces the JavaScript comparison semantics exactly.
-/

/-- Fitness enum of `types.ts`. -/
inductive FitnessLevel
  | SEDENTARY | BEGINNER | AVERAGE | ATHLETIC | ENDURANCE | ELITE | SUPER_HUMAN
  deriving DecidableEq, Repr

/-- Pace enum of `types.ts`. -/
inductive PaceType
  | PHOTOGRAPHY | RELAXED | NORDIC | STEADY | POWER | FAST | TRAIL_RUN | SKY_RUN
  deriving DecidableEq, Repr

/-- Pack weight enum of `types.ts`. -/
inductive PackWeight
  | LIGHT | MEDIUM | HEAVY
  deriving DecidableEq, Repr

/-- `TimeEstimation` of `types.ts`: output record of one estimation algorithm.
`timeMinutes` is a JavaScript number (always an integer in normal operation,
because every algorithm rounds). -/
structure TimeEstimation where
  method : String
  timeMinutes : ℚ
  description : String
  deriving DecidableEq, Repr

/-- Aggregate type tag of `SmartAggregate` in `types.ts` (`'MEAN' | 'MEDIAN'`). -/
inductive AggType
  | MEAN | MEDIAN
  deriving DecidableEq, Repr

/-- `SmartAggregate` of `types.ts`. -/
structure SmartAggregate where
  val : ℤ
  type : AggType
  reason : String
  deriving DecidableEq, Repr

/-- JavaScript `Math.round`: round half towards positive infinity. -/
def jsRound (q : ℚ) : ℤ := ⌊q + 1/2⌋

/-- Ascending insertion into a sorted list; auxiliary for `sortAsc`. -/
def insertAsc (x : ℚ) : List ℚ → List ℚ
  | [] => [x]
  | y :: ys => if x ≤ y then x :: y :: ys else y :: insertAsc x ys

/-- `values.sort((a, b) => a - b)` of calcService.ts line 173: numeric
ascending sort (the sorted value list is unique, so the choice of sorting
algorithm is irrelevant at the value level). -/
def sortAsc : List ℚ → List ℚ
  | [] => []
  | x :: xs => insertAsc x (sortAsc xs)

/-- The JavaScript truth of `|mean - median| / median > 0.10`
(calcService.ts lines 184-186), including the division-by-zero cases:
for `den = 0` JavaScript produces `NaN` when `num = 0` (comparison false)
and `+Infinity` when `num > 0` (comparison true); `num` is an absolute
value so it is never negative. -/
def aggGuardHolds (num den : ℚ) : Bool :=
  if den = 0 then decide (num ≠ 0) else decide (num / den > 1/10)

/-- The percentage text `(diffPercent * 100).toFixed(0)` used in the median
reason string; `"Infinity"` reproduces the JavaScript rendering when the
median is zero and the numerator is not. -/
def pctStr (num den : ℚ) : String :=
  if den = 0 then "Infinity" else toString (jsRound (num / den * 100))

/-- The median-branch reason string of calcService.ts line 190. -/
def mkMedianReason (num den : ℚ) : String :=
  "Average skewed by outliers (" ++ pctStr num den ++ "% var). Using Median."

/-- `calculateSmartAggregate` of calcService.ts lines 170-199. -/
def calculateSmartAggregate (estimations : List TimeEstimation) : SmartAggregate :=
  if estimations.length = 0 then { val := 0, type := AggType.MEAN, reason := "No data" }
  else
    let values := sortAsc (estimations.map (fun e => e.timeMinutes))
    let sum := values.foldl (fun acc curr => acc + curr) 0
    let mean := sum / (values.length : ℚ)
    let mid := values.length / 2
    let median :=
      if values.length % 2 ≠ 0 then values.getD mid 0
      else (values.getD (mid - 1) 0 + values.getD mid 0) / 2
    if aggGuardHolds |mean - median| median then
      { val := jsRound median, type := AggType.MEDIAN,
        reason := mkMedianReason |mean - median| median }
    else
      { val := jsRound mean, type := AggType.MEAN,
        reason := "Methods align well. Using Average." }

/-- Mean of the `timeMinutes` values, stated the way the specification
words it (sum of the values over their count); used to compare the
source-translated aggregator against the specified arithmetic. -/
def specMean (l : List TimeEstimation) : ℚ :=
  (l.map (fun e => e.timeMinutes)).sum / (l.length : ℚ)

/-- Median of the `timeMinutes` values as the specification words it:
middle element of the ascending ordering, average of the two middle
elements for even counts. -/
def specMedian (l : List TimeEstimation) : ℚ :=
  let vs := sortAsc (l.map (fun e => e.timeMinutes))
  if vs.length % 2 ≠ 0 then vs.getD (vs.length / 2) 0
  else (vs.getD (vs.length / 2 - 1) 0 + vs.getD (vs.length / 2) 0) / 2

/-- Five estimates with minute values 100, 100, 100, 100, 500: the
tie-break example of the specification. -/
def fiveEsts : List TimeEstimation :=
  [ { method := "M1", timeMinutes := 100, description := "d1" }
  , { method := "M2", timeMinutes := 100, description := "d2" }
  , { method := "M3", timeMinutes := 100, description := "d3" }
  , { method := "M4", timeMinutes := 100, description := "d4" }
  , { method := "M5", timeMinutes := 500, description := "d5" } ]

/-- Degrees to radians (`deg2rad` of the geo utilities). -/
noncomputable def deg2rad (deg : ℝ) : ℝ := deg * (Real.pi / 180)

/-- `Math.atan2 y x` restricted to the quadrant reachable from the haversine
formula: both arguments are square roots, hence nonnegative, and they are
never both zero (`x = 0` forces `a ≥ 1`, hence `y ≥ 1`). -/
noncomputable def jsAtan2 (y x : ℝ) : ℝ :=
  if x = 0 then Real.pi / 2 else Real.arctan (y / x)

/-- `calculateDistance` of the geo utilities: haversine distance in km with
Earth radius 6371 km. -/
noncomputable def calculateDistance (lat1 lon1 lat2 lon2 : ℝ) : ℝ :=
  let dLat := deg2rad (lat2 - lat1)
  let dLon := deg2rad (lon2 - lon1)
  let a := Real.sin (dLat / 2) * Real.sin (dLat / 2) +
    Real.cos (deg2rad lat1) * Real.cos (deg2rad lat2) *
    Real.sin (dLon / 2) * Real.sin (dLon / 2)
  let c := 2 * jsAtan2 (Real.sqrt a) (Real.sqrt (1 - a))
  6371 * c

/-- JavaScript `Math.round` on the real model. -/
noncomputable def jsRoundR (x : ℝ) : ℤ := ⌊x + 1/2⌋

/-- `parseFloat(x.toFixed(k))` for `m = 10^k`: round to `k` decimal places,
half up (exact for the nonnegative quantities it is applied to here). -/
noncomputable def roundToR (m x : ℝ) : ℝ := ((⌊x * m + 1/2⌋ : ℤ) : ℝ) / m

/-- `parseFloat(x.toFixed(2))`. -/
noncomputable def roundTo2R (x : ℝ) : ℝ := roundToR 100 x

/-- `parseFloat(x.toFixed(3))`. -/
noncomputable def roundTo3R (x : ℝ) : ℝ := roundToR 1000 x

/-- One parsed `<trkpt>` element: the lat/lon attributes and the `<ele>`
child, after `parseFloat` (the DOM layer itself is outside the model;
the specification treats the parser as a trusted producer of points). -/
structure TrackIn where
  lat : ℝ
  lon : ℝ
  ele : ℝ

/-- `GPXPoint` of `types.ts` (final revision: `slope` optional). -/
structure GPXPoint where
  lat : ℝ
  lon : ℝ
  ele : ℝ
  distFromStart : ℝ
  slope : Option ℝ

/-- Elevation-gain accumulator of the `parseGPX` loop (part_006 lines
352-360), walking the elevation sequence with the previous value in hand:
a delta with `|delta| > 0.5` and positive sign is added, others are not. -/
noncomputable def gainAux (prev : ℝ) : List ℝ → ℝ
  | [] => 0
  | e :: rest =>
    (if |e - prev| > 0.5 then (if e - prev > 0 then e - prev else 0) else 0) + gainAux e rest

/-- The raw (unrounded) `elevationGain` accumulated by `parseGPX`. -/
noncomputable def elevationGainRaw : List ℝ → ℝ
  | [] => 0
  | e :: rest => gainAux e rest

/-- Elevation-loss accumulator of the `parseGPX` loop: a delta with
`|delta| > 0.5` and negative sign contributes its magnitude. -/
noncomputable def lossAux (prev : ℝ) : List ℝ → ℝ
  | [] => 0
  | e :: rest =>
    (if |e - prev| > 0.5 then (if e - prev > 0 then 0 else |e - prev|) else 0) + lossAux e rest

/-- The raw (unrounded) `elevationLoss` accumulated by `parseGPX`. -/
noncomputable def elevationLossRaw : List ℝ → ℝ
  | [] => 0
  | e :: rest => lossAux e rest

/-- The raw (unrounded) `totalDistance` accumulated by `parseGPX`:
sum of consecutive haversine distances. -/
noncomputable def totalDistanceRawAux (prev : TrackIn) : List TrackIn → ℝ
  | [] => 0
  | p :: rest =>
    calculateDistance prev.lat prev.lon p.lat p.lon + totalDistanceRawAux p rest

/-- The per-segment slope value of `parseGPX` (part_006 lines 362-366):
percentage rise over run, zero for sub-meter segments. -/
noncomputable def parseSlopeVal (prev p : TrackIn) : ℝ :=
  let d := calculateDistance prev.lat prev.lon p.lat p.lon
  if d > 0.001 then ((p.ele - prev.ele) / (d * 1000)) * 100 else 0

/-- The point records pushed by the `parseGPX` loop after the first:
`distFromStart` is the running raw total rounded to 3 decimals
(`parseFloat(totalDistance.toFixed(3))`), `slope` the per-segment value. -/
noncomputable def pointsAux (prev : TrackIn) (accDist : ℝ) : List TrackIn → List GPXPoint
  | [] => []
  | p :: rest =>
    let d := calculateDistance prev.lat prev.lon p.lat p.lon
    { lat := p.lat, lon := p.lon, ele := p.ele,
      distFromStart := roundTo3R (accDist + d),
      slope := some (parseSlopeVal prev p) } :: pointsAux p (accDist + d) rest

/-- The full `points` array built by `parseGPX` from a non-empty track:
the first point carries `distFromStart = toFixed3 0` and slope 0. -/
noncomputable def pointsOf (t : TrackIn) (ts : List TrackIn) : List GPXPoint :=
  { lat := t.lat, lon := t.lon, ele := t.ele,
    distFromStart := roundTo3R 0, slope := some 0 } :: pointsAux t 0 ts

/-- The `(totalSlopeAccumulator, slopeCount)` pair of the `parseGPX` loop:
absolute percentage slope summed over segments longer than 0.001 km. -/
noncomputable def slopeStatAux (prev : TrackIn) : List TrackIn → ℝ × ℕ
  | [] => (0, 0)
  | p :: rest =>
    let d := calculateDistance prev.lat prev.lon p.lat p.lon
    let tail := slopeStatAux p rest
    if d > 0.001 then (|parseSlopeVal prev p| + tail.1, tail.2 + 1) else tail

/-- Running maximum, seeded with the first element (`maxElevation` starts at
`-Infinity` in the source, so on a non-empty track it is the maximum). -/
noncomputable def listMaxR (x : ℝ) : List ℝ → ℝ
  | [] => x
  | y :: ys => listMaxR (max x y) ys

/-- Running minimum, seeded with the first element. -/
noncomputable def listMinR (x : ℝ) : List ℝ → ℝ
  | [] => x
  | y :: ys => listMinR (min x y) ys

/-- `SlopeBreakdown` of the final geo utilities revision: seven signed
slope bands, each holding km of distance. -/
structure SlopeBreakdown where
  flat : ℝ
  mildUp : ℝ
  moderateUp : ℝ
  steepUp : ℝ
  mildDown : ℝ
  moderateDown : ℝ
  steepDown : ℝ

/-- Sum of the seven bucket distances of a `SlopeBreakdown`. -/
noncomputable def sbSum (s : SlopeBreakdown) : ℝ :=
  s.flat + s.mildUp + s.moderateUp + s.steepUp + s.mildDown + s.moderateDown + s.steepDown

/-- The all-zero bucket record the `calculateSlopeBreakdown` loop starts from. -/
def sbZero : SlopeBreakdown := ⟨0, 0, 0, 0, 0, 0, 0⟩

/-- Bucket classification of `calculateSlopeBreakdown` (part_006 lines
251-261): one segment distance is attributed to exactly one of the seven
bands, chosen by the signed percentage slope. -/
noncomputable def addToBucket (s : SlopeBreakdown) (slopeVal dist : ℝ) : SlopeBreakdown :=
  if |slopeVal| < 2 then { s with flat := s.flat + dist }
  else if slopeVal ≥ 2 then
    if slopeVal < 8 then { s with mildUp := s.mildUp + dist }
    else if slopeVal < 15 then { s with moderateUp := s.moderateUp + dist }
    else { s with steepUp := s.steepUp + dist }
  else
    if slopeVal > -8 then { s with mildDown := s.mildDown + dist }
    else if slopeVal > -15 then { s with moderateDown := s.moderateDown + dist }
    else { s with steepDown := s.steepDown + dist }

/-- The slope used by `calculateSlopeBreakdown` for a segment: the stored
per-point `slope` when present, otherwise recomputed from the
`distFromStart` delta. -/
noncomputable def sbSlopeOf (prev curr : GPXPoint) (dist : ℝ) : ℝ :=
  match curr.slope with
  | some v => v
  | none => ((curr.ele - prev.ele) / (dist * 1000)) * 100

/-- The bucket-accumulation loop of `calculateSlopeBreakdown`: segments
with a positive `distFromStart` delta are classified, others skipped. -/
noncomputable def sbAux (prev : GPXPoint) (acc : SlopeBreakdown) : List GPXPoint → SlopeBreakdown
  | [] => acc
  | p :: rest =>
    let dist := p.distFromStart - prev.distFromStart
    let acc' := if dist > 0 then addToBucket acc (sbSlopeOf prev p dist) dist else acc
    sbAux p acc' rest

/-- The final `toFixed(2)` pass applied to every bucket before returning. -/
noncomputable def roundSB (s : SlopeBreakdown) : SlopeBreakdown :=
  { flat := roundTo2R s.flat, mildUp := roundTo2R s.mildUp,
    moderateUp := roundTo2R s.moderateUp, steepUp := roundTo2R s.steepUp,
    mildDown := roundTo2R s.mildDown, moderateDown := roundTo2R s.moderateDown,
    steepDown := roundTo2R s.steepDown }

/-- `calculateSlopeBreakdown` of part_006 lines 227-274 (the
`totalDistance` parameter is unused in the source body as well). -/
noncomputable def calculateSlopeBreakdown (points : List GPXPoint) (totalDistance : ℝ) :
    SlopeBreakdown :=
  match points with
  | [] => roundSB sbZero
  | p :: rest => roundSB (sbAux p sbZero rest)

/-- `RouteStats` of `types.ts` (final revision, seven-band breakdown). -/
structure RouteStats where
  totalDistance : ℝ
  elevationGain : ℝ
  elevationLoss : ℝ
  maxElevation : ℝ
  minElevation : ℝ
  avgSlope : ℝ
  points : List GPXPoint
  slopeBreakdown : SlopeBreakdown

/-- The `RouteStats` record returned by `parseGPX` (part_006 lines 316-391)
on a non-empty track, assembled from the loop accumulators component by
component (the accumulators are independent, so the single source loop is
embedded as one pass per component). -/
noncomputable def parseGPXStats (t : TrackIn) (ts : List TrackIn) : RouteStats :=
  let eles := (t :: ts).map (fun p => p.ele)
  let stat := slopeStatAux t ts
  { totalDistance := roundTo2R (totalDistanceRawAux t ts)
    elevationGain := ((jsRoundR (elevationGainRaw eles) : ℤ) : ℝ)
    elevationLoss := ((jsRoundR (elevationLossRaw eles) : ℤ) : ℝ)
    maxElevation := ((jsRoundR (listMaxR t.ele (ts.map (fun p => p.ele))) : ℤ) : ℝ)
    minElevation := ((jsRoundR (listMinR t.ele (ts.map (fun p => p.ele))) : ℤ) : ℝ)
    avgSlope := if stat.2 > 0 then stat.1 / (stat.2 : ℝ) else 0
    points := pointsOf t ts
    slopeBreakdown := calculateSlopeBreakdown (pointsOf t ts) (totalDistanceRawAux t ts) }

/-- `parseGPX`: throws on an empty track (`none` here), otherwise the stats. -/
noncomputable def parseGPX : List TrackIn → Option RouteStats
  | [] => none
  | t :: ts => some (parseGPXStats t ts)

/-- `CalculationContext` of `types.ts`. -/
structure CalculationContext where
  stats : RouteStats
  fitness : FitnessLevel
  pace : PaceType
  weight : PackWeight
  includeBreaks : Bool

/-- `getFitnessBaseSpeed` of calcService.ts lines 6-17 (the `default`
arm of the source switch is unreachable: the match is exhaustive). -/
def getFitnessBaseSpeed : FitnessLevel → ℚ
  | FitnessLevel.SEDENTARY => 2.5
  | FitnessLevel.BEGINNER => 3.2
  | FitnessLevel.AVERAGE => 4.0
  | FitnessLevel.ATHLETIC => 5.0
  | FitnessLevel.ENDURANCE => 5.5
  | FitnessLevel.ELITE => 6.0
  | FitnessLevel.SUPER_HUMAN => 7.0

/-- `getPaceMultiplier` of calcService.ts lines 20-32. -/
def getPaceMultiplier : PaceType → ℚ
  | PaceType.PHOTOGRAPHY => 0.6
  | PaceType.RELAXED => 0.8
  | PaceType.NORDIC => 1.1
  | PaceType.STEADY => 1.0
  | PaceType.POWER => 1.3
  | PaceType.FAST => 1.4
  | PaceType.TRAIL_RUN => 2.0
  | PaceType.SKY_RUN => 2.4

/-- `getCalculatedSpeed` of calcService.ts lines 34-43: base speed times
pace multiplier, then the Langmuir pack-weight corrections (the two `if`
branches are mutually exclusive). -/
def getCalculatedSpeed (ctx : CalculationContext) : ℚ :=
  getFitnessBaseSpeed ctx.fitness * getPaceMultiplier ctx.pace *
    (if ctx.weight = PackWeight.MEDIUM then 0.95 else 1) *
    (if ctx.weight = PackWeight.HEAVY then 0.85 else 1)

/-- The running-pace test of `applyBreaks` (calcService.ts line 46). -/
def isRunningPace (pace : PaceType) : Bool :=
  pace = PaceType.TRAIL_RUN ∨ pace = PaceType.SKY_RUN

/-- `applyBreaks` of calcService.ts lines 45-53: 10 minutes of break per
completed hour of moving time, skipped for running paces or when breaks
are disabled. -/
noncomputable def applyBreaks (minutes : ℝ) (ctx : CalculationContext) : ℝ :=
  if ctx.includeBreaks = false ∨ isRunningPace ctx.pace then minutes
  else minutes + ((⌊minutes / 60⌋ : ℤ) : ℝ) * 10

/-- The raw Tobler hiking velocity `6 * e^(-3.5 * |slope + 0.05|)` of
calcService.ts line 92. -/
noncomputable def toblerRawVelocity (slope : ℝ) : ℝ :=
  6 * Real.exp (-(3.5) * |slope + 0.05|)

/-- The clamped Tobler velocity of calcService.ts line 96: a floor of
0.5 km/h guards against near-zero velocities on extreme slopes. -/
noncomputable def toblerVelocity (slope : ℝ) : ℝ :=
  if toblerRawVelocity slope < 0.5 then 0.5 else toblerRawVelocity slope

/-- One iteration of the Tobler loop (calcService.ts lines 82-99): a
zero-distance segment is skipped (`continue`), otherwise its time is
distance over clamped velocity, with `slope = eleDiff / (dist * 1000)`. -/
noncomputable def toblerSegmentHours (dist eleDiff : ℝ) : ℝ :=
  if dist = 0 then 0 else dist / toblerVelocity (eleDiff / (dist * 1000))

/-- The Tobler loop over consecutive point pairs. -/
noncomputable def toblerBaseAux (prev : GPXPoint) : List GPXPoint → ℝ
  | [] => 0
  | p :: rest =>
    toblerSegmentHours (calculateDistance prev.lat prev.lon p.lat p.lon) (p.ele - prev.ele)
      + toblerBaseAux p rest

/-- Total unscaled Tobler hours over a point sequence. -/
noncomputable def toblerBaseHours : List GPXPoint → ℝ
  | [] => 0
  | p :: rest => toblerBaseAux p rest

/-- Sum of consecutive haversine segment distances of a point sequence. -/
noncomputable def segDistAux (prev : GPXPoint) : List GPXPoint → ℝ
  | [] => 0
  | p :: rest => calculateDistance prev.lat prev.lon p.lat p.lon + segDistAux p rest

/-- Total haversine distance over a point sequence. -/
noncomputable def segDistSum : List GPXPoint → ℝ
  | [] => 0
  | p :: rest => segDistAux p rest

/-- `calculateTobler` of calcService.ts lines 75-107: unscaled hours from
the per-segment integration, rescaled by `6 / userSpeed`, converted to
minutes, breaks applied, rounded.  (The source method string contains an
apostrophe, omitted here.) -/
noncomputable def calculateTobler (ctx : CalculationContext) : TimeEstimation :=
  let userSpeed : ℝ := ((getCalculatedSpeed ctx : ℚ) : ℝ)
  let scaleFactor := 6 / userSpeed
  let totalHours := toblerBaseHours ctx.stats.points * scaleFactor
  { method := "Tobler Function"
    timeMinutes := ((jsRoundR (applyBreaks (totalHours * 60) ctx) : ℤ) : ℚ)
    description := "Scientific: Slope-dependent velocity integration." }

/-- The sequential base-MET assignment of `calculateBioMetrics`
(calcService.ts lines 287-289): 3.5, overwritten by 5.0 for FAST and by
8.0 for TRAIL_RUN (the two tests are mutually exclusive, so the later
assignment is encoded as the outer conditional). -/
noncomputable def bioBaseMets (pace : PaceType) : ℝ :=
  if pace = PaceType.TRAIL_RUN then 8.0 else if pace = PaceType.FAST then 5.0 else 3.5

/-- The pack-load addend of `calculateBioMetrics` (lines 279-281). -/
noncomputable def packLoad (w : PackWeight) : ℝ :=
  if w = PackWeight.MEDIUM then 7 else if w = PackWeight.HEAVY then 15 else 0

/-- `BioMetrics` of `types.ts`; calories are rounded to an integer. -/
structure BioMetrics where
  calories : ℤ
  water : ℝ

/-- The temperature addend of the water rate (lines 299-303); the source
guards with JavaScript truthiness, so an absent or zero temperature adds
nothing. -/
noncomputable def waterTempAdd : Option ℝ → ℝ
  | none => 0
  | some t =>
    if t = 0 then 0
    else (if t > 20 then 0.2 else 0) + (if t > 28 then 0.3 else 0) + (if t > 35 then 0.2 else 0)

/-- `calculateBioMetrics` of calcService.ts lines 275-312. -/
noncomputable def calculateBioMetrics (ctx : CalculationContext) (durationMinutes : ℝ)
    (tempC : Option ℝ) : BioMetrics :=
  let totalWeight : ℝ := 75 + packLoad ctx.weight
  let hours := durationMinutes / 60
  let avgGrade := ctx.stats.elevationGain / (ctx.stats.totalDistance * 1000) * 100
  let mets := bioBaseMets ctx.pace + avgGrade * 0.3
  let waterRate := 0.5 + waterTempAdd tempC
    + (if ctx.pace = PaceType.FAST ∨ ctx.pace = PaceType.TRAIL_RUN then 0.2 else 0)
    + (if avgGrade > 8 then 0.1 else 0)
  { calories := jsRoundR (mets * totalWeight * hours)
    water := roundToR 10 (waterRate * hours) }

/-- The calorie formula as the (amended) specification words it: base MET
3.5, 5.0 for the fast pace, 8.0 for the trail-running pace, plus
`avgGrade * 0.3` with `avgGrade = elevationGain / (totalDistance in
meters) * 100`; `round(MET * (75 kg + pack addend) * durationHours)`. -/
noncomputable def specCalories (ctx : CalculationContext) (durationMinutes : ℝ) : ℤ :=
  let avgGrade := ctx.stats.elevationGain / (ctx.stats.totalDistance * 1000) * 100
  let met := (if ctx.pace = PaceType.TRAIL_RUN then 8.0
    else if ctx.pace = PaceType.FAST then 5.0 else 3.5) + avgGrade * 0.3
  jsRoundR (met * (75 + packLoad ctx.weight) * (durationMinutes / 60))

/-- The downsampling stride of `smoothGPXPoints` (part_006 lines 280-281):
`Math.max(1, Math.ceil(points.length / targetPoints))` with a target of
1000 points. -/
def downsampleStep (len : ℕ) : ℕ := max 1 ⌈(len : ℚ) / 1000⌉₊

/-- `points.filter((_, i) => i % step === 0)`: keep indices divisible by
the stride, counting from `i`. -/
def keepEvery (step : ℕ) : ℕ → List GPXPoint → List GPXPoint
  | _, [] => []
  | i, p :: rest =>
    if i % step = 0 then p :: keepEvery step (i + 1) rest else keepEvery step (i + 1) rest

/-- The slope recomputation of the downsample `.map` (part_006 lines
283-294), for points after the first: slope 0 unless the distance to the
previous kept point exceeds 0.001 km. -/
noncomputable def recalcSlopeAux (prev : GPXPoint) : List GPXPoint → List GPXPoint
  | [] => []
  | p :: rest =>
    let dist := calculateDistance prev.lat prev.lon p.lat p.lon
    let slope := if dist > 0.001 then ((p.ele - prev.ele) / (dist * 1000)) * 100 else 0
    { p with slope := some slope } :: recalcSlopeAux p rest

/-- Slope recomputation over the whole downsampled list; the first point
gets slope 0 (`i > 0` fails). -/
noncomputable def recalcSlopes : List GPXPoint → List GPXPoint
  | [] => []
  | p :: rest => { p with slope := some 0 } :: recalcSlopeAux p rest

/-- The downsampled, slope-recomputed series of `smoothGPXPoints`. -/
noncomputable def downsampleModel (points : List GPXPoint) : List GPXPoint :=
  recalcSlopes (keepEvery (downsampleStep points.length) 0 points)

/-- The window width table of `smoothGPXPoints` (part_006 lines 298-302):
default 3, then 5/15/40/80 for levels 1-4. -/
def windowSizeOf (level : ℕ) : ℕ :=
  if level = 1 then 5 else if level = 2 then 15
  else if level = 3 then 40 else if level = 4 then 80 else 3

/-- Index-value pairing, mirroring the JavaScript `.map((point, idx) => ...)`
callback arguments. -/
def withIdx : ℕ → List GPXPoint → List (ℕ × GPXPoint)
  | _, [] => []
  | i, p :: rest => (i, p) :: withIdx (i + 1) rest

/-- One entry of the smoothing `.map` (part_006 lines 304-313): a centered
moving average of elevation and slope over a boundary-clipped window of
the downsampled array; all other fields are spread from the input point. -/
noncomputable def smoothEntry (arr : List GPXPoint) (w : ℕ) (ip : ℕ × GPXPoint) : GPXPoint :=
  let start := ip.1 - w / 2
  let stop := min arr.length (ip.1 + w / 2 + 1)
  let subset := (arr.drop start).take (stop - start)
  let avgEle := (subset.map (fun p => p.ele)).sum / (subset.length : ℝ)
  let avgSlope := (subset.map (fun p => p.slope.getD 0)).sum / (subset.length : ℝ)
  { ip.2 with ele := avgEle, slope := some avgSlope }

/-- The smoothing pass of `smoothGPXPoints`. -/
noncomputable def smoothPass (arr : List GPXPoint) (w : ℕ) : List GPXPoint :=
  (withIdx 0 arr).map (smoothEntry arr w)

/-- `smoothGPXPoints` of part_006 lines 277-314: downsample with slope
recomputation, then return unchanged at level 0 or apply the moving
average at the level-selected window width. -/
noncomputable def smoothGPXPoints (points : List GPXPoint) (level : ℕ) : List GPXPoint :=
  let downsampled := downsampleModel points
  if level = 0 then downsampled
  else smoothPass downsampled (windowSizeOf level)

/-- Closed-form count of indices `≡ 0 (mod s)` in `[i, i + n)`, used to
settle the downsample length formula. -/
def multCount (s i n : ℕ) : ℕ := (i + n + s - 1) / s - (i + s - 1) / s

/-- The elevation of step `k` of a track alternating between 0 m and
0.3 m: every consecutive delta is `±0.3`, below the 0.5 m noise floor. -/
noncomputable def altEle (k : ℕ) : ℝ := if k % 2 = 0 then 0 else 0.3

/-- The alternating elevation sequence of length `n`. -/
noncomputable def altEles (n : ℕ) : List ℝ := (List.range n).map altEle

/-- The alternating track itself: stationary in the horizontal plane,
elevation alternating by `±0.3` per step. -/
noncomputable def altTrackTail (n : ℕ) : List TrackIn :=
  (List.range n).map (fun i => { lat := 0, lon := 0, ele := altEle (i + 1) })

/-- First point of the alternating track. -/
noncomputable def altHead : TrackIn := { lat := 0, lon := 0, ele := altEle 0 }

/-- Route stats used for concrete bio-metric evaluations: a 1 km flat
route with no recorded points. -/
noncomputable def statsFlat1km : RouteStats :=
  { totalDistance := 1, elevationGain := 0, elevationLoss := 0,
    maxElevation := 0, minElevation := 0, avgSlope := 0,
    points := [], slopeBreakdown := sbZero }

/-- A sky-running calculation context over the flat 1 km route. -/
noncomputable def ctxSkyRun : CalculationContext :=
  { stats := statsFlat1km, fitness := FitnessLevel.AVERAGE,
    pace := PaceType.SKY_RUN, weight := PackWeight.LIGHT, includeBreaks := false }

/-- A degenerate point at the origin, used for concrete instantiations. -/
noncomputable def originPoint : GPXPoint :=
  { lat := 0, lon := 0, ele := 0, distFromStart := 0, slope := none }

/-- Sum of the positive `distFromStart` deltas over consecutive points:
exactly the total distance the `calculateSlopeBreakdown` loop distributes
over its buckets. -/
noncomputable def posDiffSum (prev : GPXPoint) : List GPXPoint → ℝ
  | [] => 0
  | p :: rest =>
    (if p.distFromStart - prev.distFromStart > 0
      then p.distFromStart - prev.distFromStart else 0) + posDiffSum p rest

theorem insertAsc_length (x : ℚ) (l : List ℚ) :
    (insertAsc x l).length = l.length + 1 := by
  induction l with
  | nil => rfl
  | cons y ys ih =>
    by_cases h : x ≤ y <;> simp [insertAsc, h, ih]

theorem sortAsc_length (l : List ℚ) : (sortAsc l).length = l.length := by
  induction l with
  | nil => rfl
  | cons x xs ih => simp [sortAsc, insertAsc_length, ih]

theorem insertAsc_sum (x : ℚ) (l : List ℚ) :
    (insertAsc x l).sum = x + l.sum := by
  induction l with
  | nil => simp [insertAsc]
  | cons y ys ih =>
    by_cases h : x ≤ y
    · simp [insertAsc, h]
    · simp [insertAsc, h, ih]; ring

theorem sortAsc_sum (l : List ℚ) : (sortAsc l).sum = l.sum := by
  induction l with
  | nil => rfl
  | cons x xs ih => simp [sortAsc, insertAsc_sum, ih]

theorem mem_insertAsc {y x : ℚ} {l : List ℚ} (h : y ∈ insertAsc x l) :
    y = x ∨ y ∈ l := by
  induction l with
  | nil => simpa [insertAsc] using h
  | cons z zs ih =>
    by_cases hx : x ≤ z
    · simpa [insertAsc, hx] using h
    · rcases (by simpa [insertAsc, hx] using h : y = z ∨ y ∈ insertAsc x zs) with h' | h'
      · exact Or.inr (by simp [h'])
      · rcases ih h' with h'' | h''
        · exact Or.inl h''
        · exact Or.inr (by simp [h''])

theorem mem_sortAsc {y : ℚ} {l : List ℚ} (h : y ∈ sortAsc l) : y ∈ l := by
  induction l with
  | nil => simpa [sortAsc] using h
  | cons x xs ih =>
    rcases mem_insertAsc h with h' | h'
    · simp [h']
    · exact List.mem_cons_of_mem _ (ih h')

theorem foldl_add_eq_sum (l : List ℚ) (init : ℚ) :
    l.foldl (fun acc curr => acc + curr) init = init + l.sum := by
  induction l generalizing init with
  | nil => simp
  | cons x xs ih => simp [ih]; ring

theorem jsRound_zero : jsRound 0 = 0 := by
  simp [jsRound]
  norm_num

theorem getD_zero_of_all_zero {vs : List ℚ} (h : ∀ x ∈ vs, x = 0) (n : ℕ) :
    vs.getD n 0 = 0 := by
  rcases h' : vs[n]? with _ | x
  · simp [List.getD, h']
  · have hx : x ∈ vs := List.getElem?_mem h'
    simp [List.getD, h', h x hx]

/-- C1: for every non-empty estimate list, `calculateSmartAggregate` computes
the mean and the median (average of the two middle values for even counts) of
the `timeMinutes` values and the relative deviation `|mean - median| / median`;
above 0.10 it reports the median with type MEDIAN and a reason citing the
percentage, otherwise the mean with type MEAN.  In particular the input with
minute values `[100, 100, 100, 100, 500]` has mean 180, median 100, deviation
0.8 > 0.10, and yields MEDIAN with value 100.  (The non-degeneracy hypothesis
`median ≠ 0` keeps the rational deviation test aligned with the JavaScript
floating-point one; the zero-median case is treated in the C10 theorem.) -/
theorem spec_c1 :
    (∀ (l : List TimeEstimation), l ≠ [] → specMedian l ≠ 0 →
      calculateSmartAggregate l =
        if |specMean l - specMedian l| / specMedian l > 1/10 then
          { val := jsRound (specMedian l), type := AggType.MEDIAN,
            reason := mkMedianReason |specMean l - specMedian l| (specMedian l) }
        else
          { val := jsRound (specMean l), type := AggType.MEAN,
            reason := "Methods align well. Using Average." })
    ∧ specMean fiveEsts = 180 ∧ specMedian fiveEsts = 100
    ∧ |specMean fiveEsts - specMedian fiveEsts| / specMedian fiveEsts = 8/10
    ∧ calculateSmartAggregate fiveEsts =
        { val := 100, type := AggType.MEDIAN,
          reason := "Average skewed by outliers (80% var). Using Median." } := by
  refine ⟨fun l hne hmed => ?_, ?_, ?_, ?_, ?_⟩
  · have hlen : ¬ (l.length = 0) := by simpa using hne
    have hmean : (sortAsc (l.map (fun e => e.timeMinutes))).foldl (fun acc curr => acc + curr) 0 /
        ((sortAsc (l.map (fun e => e.timeMinutes))).length : ℚ) = specMean l := by
      rw [foldl_add_eq_sum, sortAsc_sum, sortAsc_length]
      simp [specMean]
    simp only [calculateSmartAggregate, if_neg hlen, hmean]
    rw [show (if (sortAsc (l.map (fun e => e.timeMinutes))).length % 2 ≠ 0 then
        (sortAsc (l.map (fun e => e.timeMinutes))).getD ((sortAsc (l.map (fun e => e.timeMinutes))).length / 2) 0
        else ((sortAsc (l.map (fun e => e.timeMinutes))).getD ((sortAsc (l.map (fun e => e.timeMinutes))).length / 2 - 1) 0 +
          (sortAsc (l.map (fun e => e.timeMinutes))).getD ((sortAsc (l.map (fun e => e.timeMinutes))).length / 2) 0) / 2)
        = specMedian l from rfl]
    simp only [aggGuardHolds, if_neg hmed, decide_eq_true_eq]
  · norm_num [specMean, fiveEsts]
  · norm_num [specMedian, fiveEsts, sortAsc, insertAsc]
  · norm_num [specMean, specMedian, fiveEsts, sortAsc, insertAsc]
  · have hs : sortAsc ([100,100,100,100,500] : List ℚ) = [100,100,100,100,500] := by
      norm_num [sortAsc, insertAsc]
    simp only [calculateSmartAggregate, fiveEsts, List.map_cons, List.map_nil]
    norm_num [hs, aggGuardHolds, mkMedianReason, pctStr, jsRound, List.getD]
    rfl

theorem spec_c1_witness :
    fiveEsts ≠ [] ∧ specMedian fiveEsts ≠ 0 ∧
      calculateSmartAggregate fiveEsts =
        if |specMean fiveEsts - specMedian fiveEsts| / specMedian fiveEsts > 1/10 then
          { val := jsRound (specMedian fiveEsts), type := AggType.MEDIAN,
            reason := mkMedianReason |specMean fiveEsts - specMedian fiveEsts| (specMedian fiveEsts) }
        else
          { val := jsRound (specMean fiveEsts), type := AggType.MEAN,
            reason := "Methods align well. Using Average." } :=
  ⟨by decide, by decide,
   spec_c1.1 fiveEsts (by decide) (by decide)⟩

/-- C8: `calculateSmartAggregate` applied to the empty estimate list returns
the zero-value MEAN result with an explanatory reason instead of failing; the
embedded operation is a total function, so it cannot throw on any input. -/
theorem spec_c8 :
    calculateSmartAggregate [] =
      { val := 0, type := AggType.MEAN, reason := "No data" } := rfl

/-- C10: on any non-empty list whose estimates all have `timeMinutes = 0`
(median 0), the aggregator still returns value 0 with type MEAN: the
deviation guard — a division by zero, `NaN` in JavaScript and modelled
exactly by `aggGuardHolds` — does not select the median branch. -/
theorem spec_c10 :
    ∀ (l : List TimeEstimation), l ≠ [] → (∀ e ∈ l, e.timeMinutes = 0) →
      calculateSmartAggregate l =
        { val := 0, type := AggType.MEAN, reason := "Methods align well. Using Average." } := by
  intro l hne hz
  have hlen : ¬ (l.length = 0) := by simpa using hne
  have hall : ∀ x ∈ sortAsc (l.map (fun e => e.timeMinutes)), x = 0 := by
    intro x hx
    rcases List.mem_map.mp (mem_sortAsc hx) with ⟨e, he, rfl⟩
    exact hz e he
  have hsum : (sortAsc (l.map (fun e => e.timeMinutes))).sum = 0 := List.sum_eq_zero hall
  have hmean : (sortAsc (l.map (fun e => e.timeMinutes))).foldl (fun acc curr => acc + curr) 0 /
      ((sortAsc (l.map (fun e => e.timeMinutes))).length : ℚ) = 0 := by
    rw [foldl_add_eq_sum, hsum]
    simp
  have hmed : (if (sortAsc (l.map (fun e => e.timeMinutes))).length % 2 ≠ 0 then
      (sortAsc (l.map (fun e => e.timeMinutes))).getD ((sortAsc (l.map (fun e => e.timeMinutes))).length / 2) 0
      else ((sortAsc (l.map (fun e => e.timeMinutes))).getD ((sortAsc (l.map (fun e => e.timeMinutes))).length / 2 - 1) 0 +
        (sortAsc (l.map (fun e => e.timeMinutes))).getD ((sortAsc (l.map (fun e => e.timeMinutes))).length / 2) 0) / 2) = 0 := by
    rw [getD_zero_of_all_zero hall, getD_zero_of_all_zero hall]
    norm_num
  simp only [calculateSmartAggregate, if_neg hlen, hmean, hmed]
  norm_num [aggGuardHolds, jsRound]

theorem spec_c10_witness :
    ([{ method := "M", timeMinutes := 0, description := "d" }] : List TimeEstimation) ≠ []
    ∧ (∀ e ∈ ([{ method := "M", timeMinutes := 0, description := "d" }] : List TimeEstimation),
        e.timeMinutes = 0)
    ∧ calculateSmartAggregate [{ method := "M", timeMinutes := 0, description := "d" }] =
        { val := 0, type := AggType.MEAN, reason := "Methods align well. Using Average." } :=
  ⟨by decide, by decide, spec_c10 _ (by decide) (by decide)⟩

/-- C5 counterexample: with pace SKY_RUN (a running pace) on a flat 1 km
route for 60 minutes, the code computes calories from base MET 3.5
(round(3.5 * 75 * 1) = 263), not from the claimed 8.0
(round(8 * 75 * 1) = 600). -/
theorem spec_c5_counterexample :
    (calculateBioMetrics ctxSkyRun 60 none).calories = 263
    ∧ jsRoundR ((8 : ℝ) * (75 + 0) * (60 / 60)) = 600
    ∧ (263 : ℤ) ≠ 600 := by
  refine ⟨?_, ?_, by decide⟩
  · show jsRoundR _ = 263
    have h1 : ((if ctxSkyRun.pace = PaceType.TRAIL_RUN then (8.0:ℝ) else
        if ctxSkyRun.pace = PaceType.FAST then 5.0 else 3.5) +
        ctxSkyRun.stats.elevationGain / (ctxSkyRun.stats.totalDistance * 1000) * 100 * 0.3) *
        (75 + packLoad ctxSkyRun.weight) * ((60:ℝ) / 60) = 525/2 := by
      simp only [ctxSkyRun, statsFlat1km, packLoad, reduceCtorEq, reduceIte]
      norm_num
    simp only [calculateBioMetrics, bioBaseMets]
    rw [h1]
    norm_num [jsRoundR, Int.floor_eq_iff]
  · norm_num [jsRoundR, Int.floor_eq_iff]

/-- C5 (amended): `calculateBioMetrics` uses base MET 3.5, adjusted to 5.0
for the fast pace and to 8.0 for the trail-running pace only (the
sky-running pace keeps the 3.5 base), increments it by `avgGrade * 0.3`
with `avgGrade = elevationGain / (totalDistance in meters) * 100`, and
returns `calories = round(MET * (75 + pack addend of 0/7/15) *
durationHours)`. -/
theorem spec_c5 :
    ∀ (ctx : CalculationContext) (durationMinutes : ℝ) (tempC : Option ℝ),
      (calculateBioMetrics ctx durationMinutes tempC).calories =
        specCalories ctx durationMinutes := by
  intro ctx d tempC
  rfl

theorem gainAux_zero_of_chain : ∀ (l : List ℝ) (prev : ℝ),
    List.Chain (fun a b => |b - a| ≤ 0.5) prev l → gainAux prev l = 0 := by
  intro l
  induction l with
  | nil => intro prev _; rfl
  | cons e rest ih =>
    intro prev h
    rcases List.chain_cons.mp h with ⟨h1, h2⟩
    simp only [gainAux, if_neg (not_lt.mpr h1), ih e h2, zero_add]

theorem lossAux_zero_of_chain : ∀ (l : List ℝ) (prev : ℝ),
    List.Chain (fun a b => |b - a| ≤ 0.5) prev l → lossAux prev l = 0 := by
  intro l
  induction l with
  | nil => intro prev _; rfl
  | cons e rest ih =>
    intro prev h
    rcases List.chain_cons.mp h with ⟨h1, h2⟩
    simp only [lossAux, if_neg (not_lt.mpr h1), ih e h2, zero_add]

theorem altEle_step (k : ℕ) : |altEle (k + 1) - altEle k| ≤ 0.5 := by
  by_cases h : k % 2 = 0
  · have h1 : (k + 1) % 2 = 1 := by omega
    simp only [altEle, h, h1, if_pos, if_neg]
    rw [abs_le]
    norm_num
  · have h1 : (k + 1) % 2 = 0 := by omega
    simp only [altEle, h, h1, if_pos, if_neg]
    rw [abs_le]
    norm_num

theorem altEle_chain : ∀ (n k : ℕ),
    List.Chain (fun a b => |b - a| ≤ 0.5) (altEle k) ((List.range' (k + 1) n).map altEle) := by
  intro n
  induction n with
  | zero => intro k; simp [List.range']
  | succ m ih =>
    intro k
    simp only [List.range', List.map_cons]
    exact List.Chain.cons (altEle_step k) (ih (k + 1))

theorem altEles_gain_loss (n : ℕ) :
    elevationGainRaw (altEles n) = 0 ∧ elevationLossRaw (altEles n) = 0 := by
  cases n with
  | zero => simp [altEles, elevationGainRaw, elevationLossRaw]
  | succ m =>
    have hrw : altEles (m + 1) = altEle 0 :: (List.range' 1 m).map altEle := by
      simp [altEles, List.range_eq_range', List.range']
    rw [hrw]
    exact ⟨gainAux_zero_of_chain _ _ (altEle_chain m 0),
           lossAux_zero_of_chain _ _ (altEle_chain m 0)⟩

theorem altTrack_eles (n : ℕ) :
    (altHead :: altTrackTail n).map (fun p => p.ele) = altEles (n + 1) := by
  simp only [altHead, altTrackTail, altEles, List.map_cons, List.map_map,
    List.range_succ_eq_map]
  rfl

/-- C3: in the track reduction, a consecutive elevation delta with absolute
value at most 0.5 m contributes to neither `elevationGain` nor
`elevationLoss`; a delta above the floor adds its value to the gain when
positive and its magnitude to the loss when negative; consequently a track
alternating `±0.3` m per step yields `elevationGain = elevationLoss = 0`,
both for the raw accumulators and for the `RouteStats` that `parseGPX`
returns. -/
theorem spec_c3 :
    (∀ (a b : ℝ) (t : List ℝ), |b - a| ≤ 0.5 →
      gainAux a (b :: t) = gainAux b t ∧ lossAux a (b :: t) = lossAux b t)
    ∧ (∀ (a b : ℝ) (t : List ℝ), 0.5 < |b - a| → 0 < b - a →
      gainAux a (b :: t) = (b - a) + gainAux b t ∧ lossAux a (b :: t) = lossAux b t)
    ∧ (∀ (a b : ℝ) (t : List ℝ), 0.5 < |b - a| → b - a < 0 →
      lossAux a (b :: t) = |b - a| + lossAux b t ∧ gainAux a (b :: t) = gainAux b t)
    ∧ (∀ n : ℕ, elevationGainRaw (altEles n) = 0 ∧ elevationLossRaw (altEles n) = 0)
    ∧ (∀ n : ℕ, (parseGPXStats altHead (altTrackTail n)).elevationGain = 0
        ∧ (parseGPXStats altHead (altTrackTail n)).elevationLoss = 0) := by
  refine ⟨?_, ?_, ?_, altEles_gain_loss, ?_⟩
  · intro a b t h
    constructor
    · simp only [gainAux, if_neg (not_lt.mpr h), zero_add]
    · simp only [lossAux, if_neg (not_lt.mpr h), zero_add]
  · intro a b t h hpos
    constructor
    · simp only [gainAux, if_pos h, if_pos hpos]
    · simp only [lossAux, if_pos h, if_pos hpos, zero_add]
  · intro a b t h hneg
    constructor
    · simp only [lossAux, if_pos h, if_neg (not_lt.mpr hneg.le)]
    · simp only [gainAux, if_pos h, if_neg (not_lt.mpr hneg.le), zero_add]
  · intro n
    have h := altEles_gain_loss (n + 1)
    have hz : jsRoundR 0 = 0 := by
      simp [jsRoundR]
      norm_num
    constructor
    · show ((jsRoundR (elevationGainRaw ((altHead :: altTrackTail n).map (fun p => p.ele))) : ℤ) : ℝ) = 0
      rw [altTrack_eles, h.1, hz]
      norm_num
    · show ((jsRoundR (elevationLossRaw ((altHead :: altTrackTail n).map (fun p => p.ele))) : ℤ) : ℝ) = 0
      rw [altTrack_eles, h.2, hz]
      norm_num

theorem spec_c3_witness :
    |(0.3 : ℝ) - 0| ≤ 0.5 ∧ gainAux 0 [0.3] = gainAux 0.3 []
      ∧ lossAux 0 [0.3] = lossAux 0.3 [] := by
  have h : |(0.3 : ℝ) - 0| ≤ 0.5 := by
    rw [abs_le]
    norm_num
  exact ⟨h, (spec_c3.1 0 0.3 [] h).1, (spec_c3.1 0 0.3 [] h).2⟩

theorem toblerVelocity_ge_half (s : ℝ) : (0.5 : ℝ) ≤ toblerVelocity s := by
  unfold toblerVelocity
  by_cases h : toblerRawVelocity s < 0.5
  · simp [h]
  · simp [h]
    exact not_lt.mp h

theorem toblerVelocity_pos (s : ℝ) : (0 : ℝ) < toblerVelocity s :=
  lt_of_lt_of_le (by norm_num) (toblerVelocity_ge_half s)

theorem calculateDistance_nonneg (lat1 lon1 lat2 lon2 : ℝ) :
    0 ≤ calculateDistance lat1 lon1 lat2 lon2 := by
  simp only [calculateDistance, jsAtan2]
  have hy : 0 ≤ Real.sqrt (Real.sin (deg2rad (lat2 - lat1) / 2) * Real.sin (deg2rad (lat2 - lat1) / 2) +
      Real.cos (deg2rad lat1) * Real.cos (deg2rad lat2) *
      Real.sin (deg2rad (lon2 - lon1) / 2) * Real.sin (deg2rad (lon2 - lon1) / 2)) :=
    Real.sqrt_nonneg _
  set a := Real.sin (deg2rad (lat2 - lat1) / 2) * Real.sin (deg2rad (lat2 - lat1) / 2) +
      Real.cos (deg2rad lat1) * Real.cos (deg2rad lat2) *
      Real.sin (deg2rad (lon2 - lon1) / 2) * Real.sin (deg2rad (lon2 - lon1) / 2) with ha
  by_cases hx : Real.sqrt (1 - a) = 0
  · rw [if_pos hx]
    positivity
  · rw [if_neg hx]
    have harct : 0 ≤ Real.arctan (Real.sqrt a / Real.sqrt (1 - a)) := by
      rw [show (0 : ℝ) = Real.arctan 0 from (Real.arctan_zero).symm]
      exact Real.arctan_strictMono.monotone
        (div_nonneg (Real.sqrt_nonneg _) (Real.sqrt_nonneg _))
    positivity

theorem toblerSegmentHours_bounds {dist : ℝ} (hd : 0 ≤ dist) (eleDiff : ℝ) :
    0 ≤ toblerSegmentHours dist eleDiff ∧ toblerSegmentHours dist eleDiff ≤ 2 * dist := by
  unfold toblerSegmentHours
  by_cases h : dist = 0
  · simp [h]
  · rw [if_neg h]
    set v := toblerVelocity (eleDiff / (dist * 1000)) with hv
    have hv2 : (0.5 : ℝ) ≤ v := toblerVelocity_ge_half _
    have hvpos : (0 : ℝ) < v := toblerVelocity_pos _
    constructor
    · exact div_nonneg hd hvpos.le
    · rw [div_le_iff hvpos]
      nlinarith

theorem toblerBaseAux_bounds : ∀ (l : List GPXPoint) (prev : GPXPoint),
    0 ≤ toblerBaseAux prev l ∧ toblerBaseAux prev l ≤ 2 * segDistAux prev l := by
  intro l
  induction l with
  | nil =>
    intro prev
    simp [toblerBaseAux, segDistAux]
  | cons p rest ih =>
    intro prev
    have hd : 0 ≤ calculateDistance prev.lat prev.lon p.lat p.lon :=
      calculateDistance_nonneg _ _ _ _
    have hseg := toblerSegmentHours_bounds hd (p.ele - prev.ele)
    have htail := ih p
    constructor
    · simp only [toblerBaseAux]
      linarith [hseg.1, htail.1]
    · simp only [toblerBaseAux, segDistAux]
      linarith [hseg.2, htail.2]

theorem toblerBaseHours_bounds (points : List GPXPoint) :
    0 ≤ toblerBaseHours points ∧ toblerBaseHours points ≤ 2 * segDistSum points := by
  cases points with
  | nil => simp [toblerBaseHours, segDistSum]
  | cons p rest => exact toblerBaseAux_bounds rest p

theorem getFitnessBaseSpeed_pos (f : FitnessLevel) : 0 < getFitnessBaseSpeed f := by
  cases f <;> norm_num [getFitnessBaseSpeed]

theorem getPaceMultiplier_pos (p : PaceType) : 0 < getPaceMultiplier p := by
  cases p <;> norm_num [getPaceMultiplier]

theorem getCalculatedSpeed_pos (ctx : CalculationContext) : 0 < getCalculatedSpeed ctx := by
  unfold getCalculatedSpeed
  have h1 := getFitnessBaseSpeed_pos ctx.fitness
  have h2 := getPaceMultiplier_pos ctx.pace
  have h3 : (0 : ℚ) < (if ctx.weight = PackWeight.MEDIUM then 0.95 else 1) := by
    by_cases h : ctx.weight = PackWeight.MEDIUM <;> simp [h] <;> norm_num
  have h4 : (0 : ℚ) < (if ctx.weight = PackWeight.HEAVY then 0.85 else 1) := by
    by_cases h : ctx.weight = PackWeight.HEAVY <;> simp [h] <;> norm_num
  positivity

theorem jsRoundR_nonneg {x : ℝ} (h : 0 ≤ x) : 0 ≤ jsRoundR x := by
  unfold jsRoundR
  apply Int.floor_nonneg.mpr
  linarith

theorem applyBreaks_nonneg {m : ℝ} (ctx : CalculationContext) (h : 0 ≤ m) :
    0 ≤ applyBreaks m ctx := by
  unfold applyBreaks
  by_cases hb : ctx.includeBreaks = false ∨ isRunningPace ctx.pace
  · rwa [if_pos hb]
  · rw [if_neg hb]
    have hfloor : (0 : ℤ) ≤ ⌊m / 60⌋ := Int.floor_nonneg.mpr (by positivity)
    have : (0 : ℝ) ≤ ((⌊m / 60⌋ : ℤ) : ℝ) := by exact_mod_cast hfloor
    linarith

theorem toblerRawVelocity_slope2_lt : toblerRawVelocity 2 < 0.5 := by
  unfold toblerRawVelocity
  have habs : |(2 : ℝ) + 0.05| = 2.05 := by
    rw [abs_of_pos] <;> norm_num
  rw [habs]
  have h1 : (12 : ℝ) < Real.exp 3 := by
    have he : (2.7182818283 : ℝ) < Real.exp 1 := Real.exp_one_gt_d9
    have h3 : Real.exp 3 = Real.exp 1 ^ (3 : ℕ) := by
      rw [← Real.exp_nat_mul]
      norm_num
    rw [h3]
    have hp : (2.7182818283 : ℝ) ^ (3 : ℕ) < Real.exp 1 ^ (3 : ℕ) :=
      pow_lt_pow_left he (by norm_num) (by norm_num)
    calc (12 : ℝ) < (2.7182818283 : ℝ) ^ (3 : ℕ) := by norm_num
      _ < Real.exp 1 ^ (3 : ℕ) := hp
  have hmono : Real.exp 3 ≤ Real.exp 7.175 := Real.exp_le_exp.mpr (by norm_num)
  have h12 : (12 : ℝ) < Real.exp 7.175 := lt_of_lt_of_le h1 hmono
  have h2 : Real.exp (-(3.5) * 2.05) < 1 / 12 := by
    rw [show (-(3.5) * 2.05 : ℝ) = -(7.175) from by norm_num, Real.exp_neg]
    rw [show (1 : ℝ) / 12 = 12⁻¹ from by norm_num]
    exact inv_lt_inv_of_lt (by norm_num) h12
  nlinarith [h2]

theorem toblerSegment_1km_200pct : toblerSegmentHours 1 2000 = 1 / (1/2) := by
  unfold toblerSegmentHours
  rw [if_neg one_ne_zero, show (2000 : ℝ) / (1 * 1000) = 2 from by norm_num]
  have hv : toblerVelocity 2 = 0.5 := by
    unfold toblerVelocity
    rw [if_pos toblerRawVelocity_slope2_lt]
  rw [hv]
  norm_num

/-- C2: the Tobler integration clamps every segment velocity from below at
0.5 km/h; consequently, for every point sequence and every hiker profile
the total is a finite, nonnegative number of hours, bounded by
`2 * total distance` (time at the crawling floor), and the rounded
`timeMinutes` of `calculateTobler` is never negative.  In particular a
1 km segment with a 200 % grade costs exactly `distance / 0.5` hours
before the `6 / combinedSpeed` rescaling. -/
theorem spec_c2 :
    (∀ s : ℝ, (0.5 : ℝ) ≤ toblerVelocity s)
    ∧ (∀ ctx : CalculationContext,
        0 ≤ toblerBaseHours ctx.stats.points
        ∧ toblerBaseHours ctx.stats.points ≤ 2 * segDistSum ctx.stats.points
        ∧ 0 ≤ (calculateTobler ctx).timeMinutes)
    ∧ toblerSegmentHours 1 2000 = 1 / (1/2) := by
  refine ⟨toblerVelocity_ge_half, fun ctx => ?_, toblerSegment_1km_200pct⟩
  have hb := toblerBaseHours_bounds ctx.stats.points
  refine ⟨hb.1, hb.2, ?_⟩
  have hsp : (0 : ℝ) < ((getCalculatedSpeed ctx : ℚ) : ℝ) := by
    exact_mod_cast getCalculatedSpeed_pos ctx
  have hmin : (0 : ℝ) ≤ toblerBaseHours ctx.stats.points *
      (6 / ((getCalculatedSpeed ctx : ℚ) : ℝ)) * 60 := by
    have h1 : (0 : ℝ) ≤ 6 / ((getCalculatedSpeed ctx : ℚ) : ℝ) := by positivity
    have := hb.1
    positivity
  have hjr := jsRoundR_nonneg (applyBreaks_nonneg ctx hmin)
  simp only [calculateTobler]
  exact_mod_cast hjr

theorem recalcSlopeAux_length : ∀ (l : List GPXPoint) (prev : GPXPoint),
    (recalcSlopeAux prev l).length = l.length := by
  intro l
  induction l with
  | nil => intro prev; rfl
  | cons p rest ih =>
    intro prev
    simp only [recalcSlopeAux, List.length_cons, ih]

theorem recalcSlopes_length (l : List GPXPoint) : (recalcSlopes l).length = l.length := by
  cases l with
  | nil => rfl
  | cons p rest => simp [recalcSlopes, recalcSlopeAux_length]

theorem keepEvery_length (step : ℕ) (hs : 0 < step) : ∀ (l : List GPXPoint) (i : ℕ),
    (keepEvery step i l).length = (i + l.length + step - 1) / step - (i + step - 1) / step := by
  intro l
  induction l with
  | nil =>
    intro i
    simp [keepEvery]
  | cons p rest ih =>
    intro i
    have hsucc : (i + step - 1 + 1) / step = (i + step - 1) / step +
        if step ∣ (i + step - 1 + 1) then 1 else 0 := Nat.succ_div _ _
    have heq : i + step - 1 + 1 = i + step := by omega
    rw [heq] at hsucc
    have hdvd : step ∣ i + step ↔ i % step = 0 := by
      rw [Nat.dvd_add_self_right]
      exact Nat.dvd_iff_mod_eq_zero
    have hidx1 : i + 1 + rest.length + step - 1 = i + rest.length + step := by omega
    have hidx2 : i + (rest.length + 1) + step - 1 = i + rest.length + step := by omega
    have hidx3 : i + 1 + step - 1 = i + step := by omega
    have hmono : (i + step) / step ≤ (i + rest.length + step) / step :=
      Nat.div_le_div_right (by omega)
    have hmono2 : (i + step - 1) / step ≤ (i + step) / step :=
      Nat.div_le_div_right (by omega)
    by_cases hi : i % step = 0
    · rw [keepEvery, if_pos hi]
      simp only [List.length_cons]
      rw [ih (i + 1), hidx1, hidx3, hidx2]
      rw [if_pos (hdvd.mpr hi)] at hsucc
      omega
    · rw [keepEvery, if_neg hi]
      simp only [List.length_cons]
      rw [ih (i + 1), hidx1, hidx3, hidx2]
      rw [if_neg (fun hcon => hi (hdvd.mp hcon))] at hsucc
      omega

theorem downsampleStep_5000 : downsampleStep 5000 = 5 := by
  unfold downsampleStep
  norm_num

theorem downsampleModel_length (pts : List GPXPoint) :
    (downsampleModel pts).length =
      (pts.length + downsampleStep pts.length - 1) / downsampleStep pts.length := by
  have hstep : 0 < downsampleStep pts.length := lt_of_lt_of_le one_pos (le_max_left _ _)
  unfold downsampleModel
  rw [recalcSlopes_length, keepEvery_length _ hstep _ 0]
  have h2 : (0 + downsampleStep pts.length - 1) / downsampleStep pts.length = 0 :=
    Nat.div_eq_of_lt (by omega)
  rw [h2, Nat.sub_zero, Nat.zero_add]

/-- C6: `smoothGPXPoints` downsamples with stride
`max(1, ceil(len / 1000))`, keeping every stride-th point and recomputing
slope from scratch on the kept points (`downsampleModel`); at level 0 it
returns exactly that series, whose length is `ceil(len / stride)` — for a
5000-point track, `ceil(5000 / 5) = 1000` points. -/
theorem spec_c6 :
    ∀ (pts : List GPXPoint),
      smoothGPXPoints pts 0 = downsampleModel pts
      ∧ (smoothGPXPoints pts 0).length =
          (pts.length + downsampleStep pts.length - 1) / downsampleStep pts.length
      ∧ (pts.length = 5000 → (smoothGPXPoints pts 0).length = 1000) := by
  intro pts
  have h0 : smoothGPXPoints pts 0 = downsampleModel pts := by
    simp [smoothGPXPoints]
  refine ⟨h0, by rw [h0, downsampleModel_length], fun h5 => ?_⟩
  rw [h0, downsampleModel_length, h5, downsampleStep_5000]

theorem spec_c6_witness :
    (List.replicate 5000 originPoint).length = 5000
    ∧ (smoothGPXPoints (List.replicate 5000 originPoint) 0).length = 1000 :=
  ⟨List.length_replicate 5000 originPoint,
   (spec_c6 _).2.2 (List.length_replicate 5000 originPoint)⟩

theorem withIdx_length : ∀ (l : List GPXPoint) (i : ℕ), (withIdx i l).length = l.length := by
  intro l
  induction l with
  | nil => intro i; rfl
  | cons p rest ih => intro i; simp only [withIdx, List.length_cons, ih]

theorem withIdx_getElem? : ∀ (l : List GPXPoint) (i k : ℕ),
    (withIdx i l)[k]? = (l[k]?).map (fun p => (i + k, p)) := by
  intro l
  induction l with
  | nil => intro i k; simp [withIdx]
  | cons p rest ih =>
    intro i k
    cases k with
    | zero => simp [withIdx]
    | succ m =>
      simp only [withIdx, List.getElem?_cons_succ, ih (i + 1) m]
      have : i + 1 + m = i + (m + 1) := by omega
      rw [this]

theorem smoothPass_getElem? (arr : List GPXPoint) (w : ℕ) (i : ℕ) :
    (smoothPass arr w)[i]? = (arr[i]?).map (fun p => smoothEntry arr w (i, p)) := by
  unfold smoothPass
  rw [List.getElem?_map, withIdx_getElem?, Option.map_map]
  congr 1
  funext p
  simp

/-- C9: for every point list and every smoothing level at least 1, each
output point keeps the `lat`, `lon` and `distFromStart` of the
corresponding downsampled point unchanged; the output is index for index
the `smoothEntry` of the downsampled series, which recalculates only
`ele` and `slope` by the centered, boundary-clipped moving average. -/
theorem spec_c9 :
    ∀ (pts : List GPXPoint) (level : ℕ), 1 ≤ level →
      (smoothGPXPoints pts level).length = (downsampleModel pts).length
      ∧ (∀ i : ℕ, (smoothGPXPoints pts level)[i]? =
          ((downsampleModel pts)[i]?).map
            (fun p => smoothEntry (downsampleModel pts) (windowSizeOf level) (i, p)))
      ∧ (∀ i : ℕ, ((smoothGPXPoints pts level)[i]?).map (fun p => (p.lat, p.lon, p.distFromStart)) =
          ((downsampleModel pts)[i]?).map (fun p => (p.lat, p.lon, p.distFromStart))) := by
  intro pts level hlevel
  have hne : ¬ (level = 0) := by omega
  have hsm : smoothGPXPoints pts level =
      smoothPass (downsampleModel pts) (windowSizeOf level) := by
    simp [smoothGPXPoints, if_neg hne]
  refine ⟨?_, fun i => ?_, fun i => ?_⟩
  · rw [hsm]
    unfold smoothPass
    rw [List.length_map, withIdx_length]
  · rw [hsm, smoothPass_getElem?]
  · rw [hsm, smoothPass_getElem?, Option.map_map]
    rcases (downsampleModel pts)[i]? with _ | p
    · rfl
    · rfl

theorem spec_c9_witness :
    1 ≤ 1
    ∧ ((smoothGPXPoints [originPoint] 1).length = (downsampleModel [originPoint]).length
      ∧ (∀ i : ℕ, (smoothGPXPoints [originPoint] 1)[i]? =
          ((downsampleModel [originPoint])[i]?).map
            (fun p => smoothEntry (downsampleModel [originPoint]) (windowSizeOf 1) (i, p)))
      ∧ (∀ i : ℕ, ((smoothGPXPoints [originPoint] 1)[i]?).map
            (fun p => (p.lat, p.lon, p.distFromStart)) =
          ((downsampleModel [originPoint])[i]?).map
            (fun p => (p.lat, p.lon, p.distFromStart)))) :=
  ⟨le_refl 1, spec_c9 [originPoint] 1 (le_refl 1)⟩

/-- C4 (failing-input evaluation): the claim that `RouteStats` retains full
precision internally fails — `parseGPX` rounds before downstream
consumption.  On a two-point track at one location with elevations 0 m and
1.4 m, the raw accumulated gain is 1.4 m, but the `elevationGain` exposed
to every downstream algorithm is `Math.round(1.4) = 1` (and likewise
`totalDistance` is rounded to 2 decimals and each `distFromStart` to 3
inside the reducer, not at any reporting boundary). -/
theorem spec_c4 :
    (parseGPXStats ⟨0, 0, 0⟩ [⟨0, 0, 1.4⟩]).elevationGain = 1
    ∧ elevationGainRaw [(0 : ℝ), 1.4] = 1.4
    ∧ (1.4 : ℝ) ≠ 1 := by
  have h1 : |(1.4 : ℝ) - 0| > 0.5 := by
    rw [abs_of_nonneg] <;> norm_num
  have h2 : (1.4 : ℝ) - 0 > 0 := by norm_num
  have hraw : elevationGainRaw [(0 : ℝ), 1.4] = 1.4 := by
    simp only [elevationGainRaw, gainAux, if_pos h1, if_pos h2]
    norm_num
  refine ⟨?_, hraw, by norm_num⟩
  show ((jsRoundR (elevationGainRaw (((⟨0, 0, 0⟩ : TrackIn) :: [(⟨0, 0, 1.4⟩ : TrackIn)]).map
      (fun p => p.ele))) : ℤ) : ℝ) = 1
  rw [show (((⟨0, 0, 0⟩ : TrackIn) :: [(⟨0, 0, 1.4⟩ : TrackIn)]).map (fun p => p.ele)) =
    [(0 : ℝ), 1.4] from rfl, hraw]
  rw [show jsRoundR (1.4 : ℝ) = 1 from by
    rw [jsRoundR, Int.floor_eq_iff]
    norm_num]
  norm_num

theorem addToBucket_sum (s : SlopeBreakdown) (v d : ℝ) :
    sbSum (addToBucket s v d) = sbSum s + d := by
  unfold addToBucket sbSum
  split_ifs <;> simp <;> ring

theorem sbAux_sum : ∀ (l : List GPXPoint) (prev : GPXPoint) (acc : SlopeBreakdown),
    sbSum (sbAux prev acc l) = sbSum acc + posDiffSum prev l := by
  intro l
  induction l with
  | nil => intro prev acc; simp [sbAux, posDiffSum]
  | cons p rest ih =>
    intro prev acc
    simp only [sbAux, posDiffSum]
    by_cases h : p.distFromStart - prev.distFromStart > 0
    · rw [if_pos h, if_pos h, ih, addToBucket_sum]
      ring
    · rw [if_neg h, if_neg h, ih]
      ring

theorem posDiffSum_telescope : ∀ (l : List GPXPoint) (prev : GPXPoint),
    List.Chain (fun a b => a.distFromStart ≤ b.distFromStart) prev l →
    posDiffSum prev l = (l.getLastD prev).distFromStart - prev.distFromStart := by
  intro l
  induction l with
  | nil => intro prev _; simp [posDiffSum]
  | cons p rest ih =>
    intro prev h
    rcases List.chain_cons.mp h with ⟨h1, h2⟩
    simp only [posDiffSum, List.getLastD_cons]
    rw [ih p h2]
    by_cases hd : p.distFromStart - prev.distFromStart > 0
    · rw [if_pos hd]; ring
    · have : p.distFromStart - prev.distFromStart = 0 := by
        have := not_lt.mp hd
        linarith
      rw [if_neg hd]
      linarith [this]

theorem roundToR_mono {m : ℝ} (hm : 0 < m) {x y : ℝ} (h : x ≤ y) :
    roundToR m x ≤ roundToR m y := by
  unfold roundToR
  have hf : ((⌊x * m + 1/2⌋ : ℤ) : ℝ) ≤ ((⌊y * m + 1/2⌋ : ℤ) : ℝ) := by
    exact_mod_cast Int.floor_le_floor (by nlinarith)
  gcongr

theorem roundToR_err {m : ℝ} (hm : 0 < m) (x : ℝ) :
    |roundToR m x - x| ≤ 1 / (2 * m) := by
  unfold roundToR
  have h1 : ((⌊x * m + 1/2⌋ : ℤ) : ℝ) ≤ x * m + 1/2 := Int.floor_le _
  have h2 : x * m + 1/2 - 1 < ((⌊x * m + 1/2⌋ : ℤ) : ℝ) := Int.sub_one_lt_floor _
  set F := ((⌊x * m + 1/2⌋ : ℤ) : ℝ) with hF
  have hfeq : F / m - x = (F - x * m) / m := by
    field_simp
    ring
  have habs : |F - x * m| ≤ 1/2 := abs_le.mpr ⟨by linarith, by linarith⟩
  rw [hfeq, abs_div, abs_of_pos hm]
  calc |F - x * m| / m ≤ (1/2) / m := by gcongr
    _ = 1 / (2 * m) := by ring

theorem roundTo3R_zero : roundTo3R 0 = 0 := by
  unfold roundTo3R roundToR
  norm_num

theorem roundTo3R_mono {x y : ℝ} (h : x ≤ y) : roundTo3R x ≤ roundTo3R y :=
  roundToR_mono (by norm_num) h

theorem pointsAux_chain : ∀ (rest : List TrackIn) (prevT : TrackIn) (acc : ℝ) (q : GPXPoint),
    q.distFromStart = roundTo3R acc →
    List.Chain (fun a b => a.distFromStart ≤ b.distFromStart) q (pointsAux prevT acc rest) := by
  intro rest
  induction rest with
  | nil => intro prevT acc q hq; exact List.Chain.nil
  | cons p rl ih =>
    intro prevT acc q hq
    simp only [pointsAux]
    apply List.Chain.cons
    · show q.distFromStart ≤ roundTo3R (acc + calculateDistance prevT.lat prevT.lon p.lat p.lon)
      rw [hq]
      have hd := calculateDistance_nonneg prevT.lat prevT.lon p.lat p.lon
      exact roundTo3R_mono (by linarith)
    · exact ih p (acc + calculateDistance prevT.lat prevT.lon p.lat p.lon) _ rfl

theorem pointsAux_lastD : ∀ (rest : List TrackIn) (prevT : TrackIn) (acc : ℝ) (q : GPXPoint),
    q.distFromStart = roundTo3R acc →
    ((pointsAux prevT acc rest).getLastD q).distFromStart =
      roundTo3R (acc + totalDistanceRawAux prevT rest) := by
  intro rest
  induction rest with
  | nil =>
    intro prevT acc q hq
    simp only [pointsAux, List.getLastD_nil, totalDistanceRawAux, add_zero]
    exact hq
  | cons p rl ih =>
    intro prevT acc q hq
    simp only [pointsAux, List.getLastD_cons, totalDistanceRawAux]
    rw [ih p (acc + calculateDistance prevT.lat prevT.lon p.lat p.lon) _ rfl, add_assoc]

theorem roundSB_sum_err (s : SlopeBreakdown) : |sbSum (roundSB s) - sbSum s| ≤ 7/200 := by
  have e1 := abs_le.mp (roundToR_err (by norm_num : (0:ℝ) < 100) s.flat)
  have e2 := abs_le.mp (roundToR_err (by norm_num : (0:ℝ) < 100) s.mildUp)
  have e3 := abs_le.mp (roundToR_err (by norm_num : (0:ℝ) < 100) s.moderateUp)
  have e4 := abs_le.mp (roundToR_err (by norm_num : (0:ℝ) < 100) s.steepUp)
  have e5 := abs_le.mp (roundToR_err (by norm_num : (0:ℝ) < 100) s.mildDown)
  have e6 := abs_le.mp (roundToR_err (by norm_num : (0:ℝ) < 100) s.moderateDown)
  have e7 := abs_le.mp (roundToR_err (by norm_num : (0:ℝ) < 100) s.steepDown)
  unfold sbSum roundSB roundTo2R
  rw [abs_le]
  constructor
  · simp only []
    linarith [e1.1, e2.1, e3.1, e4.1, e5.1, e6.1, e7.1]
  · simp only []
    linarith [e1.2, e2.2, e3.2, e4.2, e5.2, e6.2, e7.2]

/-- C7: for every track with at least two points, the sum of the seven
slope-breakdown bucket distances of the `RouteStats` that `parseGPX`
returns differs from its `totalDistance` only by rounding error (each
segment is attributed to exactly one bucket and no distance twice; the
slack `1/20` km covers the seven `toFixed(2)` bucket roundings plus the
`toFixed(3)`/`toFixed(2)` roundings of the distance itself). -/
theorem spec_c7 :
    ∀ (t : TrackIn) (ts : List TrackIn), 2 ≤ (t :: ts).length →
      |sbSum (parseGPXStats t ts).slopeBreakdown - (parseGPXStats t ts).totalDistance| ≤ 1/20 := by
  intro t ts _
  set p0 : GPXPoint := { lat := t.lat, lon := t.lon, ele := t.ele,
                         distFromStart := roundTo3R 0, slope := some 0 } with hp0def
  have hp0 : p0.distFromStart = roundTo3R 0 := rfl
  have hsb : (parseGPXStats t ts).slopeBreakdown =
      roundSB (sbAux p0 sbZero (pointsAux t 0 ts)) := rfl
  have htd : (parseGPXStats t ts).totalDistance =
      roundTo2R (totalDistanceRawAux t ts) := rfl
  set T := totalDistanceRawAux t ts with hT
  set raw := sbAux p0 sbZero (pointsAux t 0 ts) with hraw
  have hrawsum : sbSum raw = posDiffSum p0 (pointsAux t 0 ts) := by
    rw [hraw, sbAux_sum]
    simp [sbZero, sbSum]
  have hchain := pointsAux_chain ts t 0 p0 hp0
  have htel := posDiffSum_telescope _ p0 hchain
  have hlast := pointsAux_lastD ts t 0 p0 hp0
  rw [hlast, zero_add, hp0] at htel
  have hsum : sbSum raw = roundTo3R T := by
    rw [hrawsum, htel, roundTo3R_zero, sub_zero]
  have e1 := abs_le.mp (roundSB_sum_err raw)
  have e2 := abs_le.mp (roundToR_err (by norm_num : (0:ℝ) < 1000) T)
  have e3 := abs_le.mp (roundToR_err (by norm_num : (0:ℝ) < 100) T)
  have h3eq : roundTo3R T = roundToR 1000 T := rfl
  have h2eq : roundTo2R T = roundToR 100 T := rfl
  rw [hsb, htd, abs_le]
  rw [hsum, h3eq] at e1
  constructor
  · linarith [e1.1, e2.1, e3.2]
  · linarith [e1.2, e2.2, e3.1]

theorem spec_c7_witness :
    2 ≤ (((⟨0, 0, 0⟩ : TrackIn) :: [(⟨0, 0, 0⟩ : TrackIn)])).length
    ∧ |sbSum (parseGPXStats (⟨0, 0, 0⟩ : TrackIn) [(⟨0, 0, 0⟩ : TrackIn)]).slopeBreakdown -
        (parseGPXStats (⟨0, 0, 0⟩ : TrackIn) [(⟨0, 0, 0⟩ : TrackIn)]).totalDistance| ≤ 1/20 :=
  ⟨by norm_num, spec_c7 ⟨0, 0, 0⟩ [⟨0, 0, 0⟩] (by norm_num)⟩
